import Mathlib

/-!
A shallow embedding of the expression evaluator and statement executor of
`src/interpreter/interpreter.rs` (the r-python repository), together with
theorems settling the frozen claims about it.

Modelling conventions:
* Rust `i32` is modelled as `Int`, with two's-complement wrapping made
  explicit through `wrap32` at every arithmetic operation (release-mode
  wrapping semantics; Rust's debug-mode overflow panic and the overflow of
  `i32::MIN.abs()` are modelled as the wrapped value).  Integer division is
  the exception: Rust's `/` panics on overflow (`i32::MIN / -1`) in every
  build mode, so that input produces no `Result` at all; the model returns
  the absent result `Option.none` there (the same "no result is produced"
  outcome used for fuel exhaustion, which for this input holds at every
  fuel).  No other division arm can overflow: a boolean divisor coerces to
  1 on the non-zero path, and a boolean dividend is 0 or 1.
* Rust `f32` payloads are modelled as `Rat`.  The claims proved about reals
  depend only on zero-testing and on the kind (variant) structure of values,
  never on floating-point rounding, so exact rational arithmetic is used for
  the real-valued operations.
* `HashMap<Name, EnvValue>` is modelled as an association list with
  `lookupEnv` / `insertEnv` / `removeEnv`.  The `HashMap` iteration order of
  a function's parameter map (which Rust leaves unspecified) is modelled as
  the list order; every theorem proved below is insensitive to that order.
* The mutual recursion between `eval` and `execute` (function calls run the
  body statement; statements evaluate sub-expressions) is unbounded in the
  source (`while` loops, recursive function calls), so the embedding takes a
  fuel parameter: `Option.none` means the fuel ran out, `some` carries the
  `Except`-style result of the Rust `Result<_, ErrorMessage>`.
* Rust `Debug` formatting (`{:?}`) of a parameter type tag is approximated
  by `debugRepr`; no claim depends on its exact text.
-/

namespace RPy

/-- `EvalResult` of interpreter.rs: the computed value of an expression. -/
inductive EvalResult : Type where
  | CInt (v : Int)
  | CReal (v : Rat)
  | Bool (v : Bool)
  | List (l : List EvalResult)
  | None

/-- The expression AST consumed by `eval` (as matched in interpreter.rs:
`CInt`, `CReal`, `Bool`, `None`, `List`, `Add`, `Sub`, `Mul`, `Div`, `Var`,
`FuncCall` with optional argument vector, `Range` with optional start/step). -/
inductive Expression : Type where
  | CInt (v : Int)
  | CReal (v : Rat)
  | Bool (v : Bool)
  | Var (name : String)
  | Add (lhs rhs : Expression)
  | Sub (lhs rhs : Expression)
  | Mul (lhs rhs : Expression)
  | Div (lhs rhs : Expression)
  | FuncCall (name : String) (args : Option (List Expression))
  | List (items : List Expression)
  | Range (start : Option Expression) (stop : Expression) (step : Option Expression)
  | None

/-- The statement AST consumed by `execute` (interpreter.rs matches
`Assignment`, `IfThenElse`, `While`, `Func` with a return-kind tag, a
parameter map, an optional body and a return expression, `For`, `Sequence`;
declaration statements fall into the "not implemented yet" arm). -/
inductive Statement : Type where
  | Assignment (name : String) (exp : Expression)
  | IfThenElse (cond : Expression) (thenStmt elseStmt : Statement)
  | While (cond : Expression) (body : Statement)
  | Func (name : String) (kind : EvalResult)
      (params : Option (List (String × EvalResult)))
      (body : Option Statement) (ret : Expression)
  | For (var : String) (exp : Expression) (body : Statement)
  | Sequence (s1 s2 : Statement)
  | VarDeclaration (name : String)
  | ValDeclaration (name : String)

/-- `EnvValue` of interpreter.rs: what an environment slot stores.  A list
slot stores `Vec<EvalResult>` directly, and a function stores its return-kind
tag, its (optional) parameter map, its optional body and return expression. -/
inductive EnvValue : Type where
  | CInt (v : Int)
  | CReal (v : Rat)
  | Bool (v : Bool)
  | List (l : List EvalResult)
  | Func (kind : EvalResult) (params : Option (List (String × EvalResult)))
      (body : Option Statement) (ret : Expression)
  | None

abbrev Name := String

/-- `Environment = HashMap<Name, EnvValue>`, modelled as an association list
with unique keys maintained by `insertEnv`. -/
abbrev Environment := List (Name × EnvValue)

def lookupEnv : Environment → Name → Option EnvValue
  | [], _ => Option.none
  | (k, v) :: rest, n => if k = n then some v else lookupEnv rest n

/-- `HashMap::insert`: replaces an existing binding, otherwise adds one. -/
def insertEnv : Environment → Name → EnvValue → Environment
  | [], n, v => [(n, v)]
  | (k, w) :: rest, n, v =>
      if k = n then (n, v) :: rest else (k, w) :: insertEnv rest n v

/-- `HashMap::remove`: drops the binding of a name. -/
def removeEnv : Environment → Name → Environment
  | [], _ => []
  | (k, w) :: rest, n =>
      if k = n then removeEnv rest n else (k, w) :: removeEnv rest n

/-- The result type of a fueled run: `Option.none` is fuel exhaustion,
`some` carries the Rust `Result<_, ErrorMessage>`. -/
abbrev Res (α : Type) : Type := Option (Except String α)

/-- The `?` operator of Rust on a fueled result. -/
def bindR {α β : Type} : Res α → (α → Res β) → Res β
  | Option.none, _ => Option.none
  | some (Except.error e), _ => some (Except.error e)
  | some (Except.ok a), f => f a

/-- Rust `bool as i32`. -/
def boolToInt (b : Bool) : Int := if b then 1 else 0

/-- Two's-complement wrapping of an `Int` into the `i32` range
`[-2^31, 2^31)`, the release-mode behaviour of Rust `i32` arithmetic. -/
def wrap32 (n : Int) : Int := (n + 2 ^ 31) % 2 ^ 32 - 2 ^ 31

/-- Rust `i32::abs` (wrapping at `i32::MIN`). -/
def wrapAbs (n : Int) : Int := wrap32 |n|

/-- The kind-matching test used by the list-homogeneity check of the `List`
branch of `eval` (interpreter.rs lines 53-59): both integers, both reals,
both booleans, or both lists; every other pair (including two `None`s, which
fall into the catch-all arm) does not match. -/
def sameKind : EvalResult → EvalResult → Bool
  | EvalResult.CInt _, EvalResult.CInt _ => true
  | EvalResult.CReal _, EvalResult.CReal _ => true
  | EvalResult.Bool _, EvalResult.Bool _ => true
  | EvalResult.List _, EvalResult.List _ => true
  | _, _ => false

/-- The integer-or-boolean coercion of the `Range` branch (its eight-case
match over `CInt`/`Bool` triples): `some` exactly on integers and booleans. -/
def asIntOpt : EvalResult → Option Int
  | EvalResult.CInt n => some n
  | EvalResult.Bool b => some (boolToInt b)
  | _ => Option.none

/-- Truthiness coercion used by `IfThenElse` and `While` conditions. -/
def truthy : EvalResult → Bool
  | EvalResult.CInt v => decide (v ≠ 0)
  | EvalResult.CReal v => decide (v ≠ 0)
  | EvalResult.Bool v => v
  | EvalResult.List v => !v.isEmpty
  | EvalResult.None => false

/-- The per-variant `EnvValue` insertion performed by `Assignment` and by the
`For` loop-variable binding. -/
def storeValue : EvalResult → EnvValue
  | EvalResult.CInt v => EnvValue.CInt v
  | EvalResult.CReal v => EnvValue.CReal v
  | EvalResult.Bool v => EnvValue.Bool v
  | EvalResult.List v => EnvValue.List v
  | EvalResult.None => EnvValue.None

/-- The value a `Var` lookup returns for a stored value, `Option.none` for a
function-valued slot (which `Var` refuses to return). -/
def toEval : EnvValue → Option EvalResult
  | EnvValue.CInt v => some (EvalResult.CInt v)
  | EnvValue.CReal v => some (EvalResult.CReal v)
  | EnvValue.Bool v => some (EvalResult.Bool v)
  | EnvValue.List v => some (EvalResult.List v)
  | EnvValue.None => some EvalResult.None
  | EnvValue.Func _ _ _ _ => Option.none

/-- Approximation of Rust `{:?}` on a parameter type tag (exact only for the
scalar tags; no claim depends on this text). -/
def debugRepr : EvalResult → String
  | EvalResult.CInt n => "CInt(" ++ toString n ++ ")"
  | EvalResult.CReal q => "CReal(" ++ toString q ++ ")"
  | EvalResult.Bool b => "Bool(" ++ (if b then "true" else "false") ++ ")"
  | EvalResult.List _ => "List(..)"
  | EvalResult.None => "None"

/-- The match on the two evaluated operands of `Add` (interpreter.rs lines
67-102): nine scalar combinations with boolean-as-0/1 coercion, list
concatenation, and the list/`None` error arms in source order. -/
def addValues : EvalResult → EvalResult → Except String EvalResult
  | EvalResult.CInt a, EvalResult.CInt b =>
      Except.ok (EvalResult.CInt (wrap32 (a + b)))
  | EvalResult.CReal a, EvalResult.CReal b => Except.ok (EvalResult.CReal (a + b))
  | EvalResult.CInt a, EvalResult.CReal b =>
      Except.ok (EvalResult.CReal ((a : Rat) + b))
  | EvalResult.CReal a, EvalResult.CInt b =>
      Except.ok (EvalResult.CReal (a + (b : Rat)))
  | EvalResult.CInt a, EvalResult.Bool b =>
      Except.ok (EvalResult.CInt (wrap32 (a + boolToInt b)))
  | EvalResult.CReal a, EvalResult.Bool b =>
      Except.ok (EvalResult.CReal (a + (boolToInt b : Rat)))
  | EvalResult.Bool a, EvalResult.CInt b =>
      Except.ok (EvalResult.CInt (wrap32 (boolToInt a + b)))
  | EvalResult.Bool a, EvalResult.CReal b =>
      Except.ok (EvalResult.CReal ((boolToInt a : Rat) + b))
  | EvalResult.Bool a, EvalResult.Bool b =>
      Except.ok (EvalResult.CInt (wrap32 (boolToInt a + boolToInt b)))
  | EvalResult.List a, EvalResult.List b => Except.ok (EvalResult.List (a ++ b))
  | EvalResult.List _, _ => Except.error "Can only concatenate list to list"
  | _, EvalResult.List _ => Except.error "Can only concatenate list to list"
  | EvalResult.None, _ => Except.error "Add is not supported for 'None'"
  | _, EvalResult.None => Except.error "Add is not supported for 'None'"

/-- The match on the two evaluated operands of `Sub` (interpreter.rs lines
107-137). -/
def subValues : EvalResult → EvalResult → Except String EvalResult
  | EvalResult.CInt a, EvalResult.CInt b =>
      Except.ok (EvalResult.CInt (wrap32 (a - b)))
  | EvalResult.CReal a, EvalResult.CReal b => Except.ok (EvalResult.CReal (a - b))
  | EvalResult.CInt a, EvalResult.CReal b =>
      Except.ok (EvalResult.CReal ((a : Rat) - b))
  | EvalResult.CReal a, EvalResult.CInt b =>
      Except.ok (EvalResult.CReal (a - (b : Rat)))
  | EvalResult.CInt a, EvalResult.Bool b =>
      Except.ok (EvalResult.CInt (wrap32 (a - boolToInt b)))
  | EvalResult.CReal a, EvalResult.Bool b =>
      Except.ok (EvalResult.CReal (a - (boolToInt b : Rat)))
  | EvalResult.Bool a, EvalResult.CInt b =>
      Except.ok (EvalResult.CInt (wrap32 (boolToInt a - b)))
  | EvalResult.Bool a, EvalResult.CReal b =>
      Except.ok (EvalResult.CReal ((boolToInt a : Rat) - b))
  | EvalResult.Bool a, EvalResult.Bool b =>
      Except.ok (EvalResult.CInt (wrap32 (boolToInt a - boolToInt b)))
  | EvalResult.List _, _ => Except.error "Sub not supported for list"
  | _, EvalResult.List _ => Except.error "Sub not supported for list"
  | EvalResult.None, _ => Except.error "Sub is not supported for 'None'"
  | _, EvalResult.None => Except.error "Sub is not supported for 'None'"

/-- `for _ in 0..n { result.extend(l) }`: the list repeated `n` times
(zero or a negative count gives the empty list). -/
def repeatList (n : Int) (l : List EvalResult) : List EvalResult :=
  (List.replicate n.toNat l).flatten

/-- The match on the two evaluated operands of `Mul` (interpreter.rs lines
142-204): nine scalar combinations, four list-replication arms, then the
list and `None` error arms in source order. -/
def mulValues : EvalResult → EvalResult → Except String EvalResult
  | EvalResult.CInt a, EvalResult.CInt b =>
      Except.ok (EvalResult.CInt (wrap32 (a * b)))
  | EvalResult.CReal a, EvalResult.CReal b => Except.ok (EvalResult.CReal (a * b))
  | EvalResult.CInt a, EvalResult.CReal b =>
      Except.ok (EvalResult.CReal ((a : Rat) * b))
  | EvalResult.CReal a, EvalResult.CInt b =>
      Except.ok (EvalResult.CReal (a * (b : Rat)))
  | EvalResult.CInt a, EvalResult.Bool b =>
      Except.ok (EvalResult.CInt (wrap32 (a * boolToInt b)))
  | EvalResult.CReal a, EvalResult.Bool b =>
      Except.ok (EvalResult.CReal (a * (boolToInt b : Rat)))
  | EvalResult.Bool a, EvalResult.CInt b =>
      Except.ok (EvalResult.CInt (wrap32 (boolToInt a * b)))
  | EvalResult.Bool a, EvalResult.CReal b =>
      Except.ok (EvalResult.CReal ((boolToInt a : Rat) * b))
  | EvalResult.Bool a, EvalResult.Bool b =>
      Except.ok (EvalResult.CInt (wrap32 (boolToInt a * boolToInt b)))
  | EvalResult.List a, EvalResult.CInt b => Except.ok (EvalResult.List (repeatList b a))
  | EvalResult.CInt a, EvalResult.List b => Except.ok (EvalResult.List (repeatList a b))
  | EvalResult.List a, EvalResult.Bool b =>
      Except.ok (EvalResult.List (repeatList (boolToInt b) a))
  | EvalResult.Bool a, EvalResult.List b =>
      Except.ok (EvalResult.List (repeatList (boolToInt a) b))
  | EvalResult.List _, _ => Except.error "Cannot multiply list by non-integer value"
  | _, EvalResult.List _ => Except.error "Cannot multiply list by non-integer value"
  | EvalResult.None, _ => Except.error "Mul is not supported for 'None'"
  | _, EvalResult.None => Except.error "Mul is not supported for 'None'"

/-- The match on the two evaluated operands of `Div` (interpreter.rs lines
209-250): each scalar arm checks its right-hand operand against zero
(`0`, `0.0`, or boolean `false`) before dividing; integer division is Rust's
truncating `/`.  On the integer/integer arm, Rust's `/` panics (aborts, in
every build mode) on the overflow input `i32::MIN / -1`; that abort produces
no `Result`, modelled as `Option.none`.  No other arm can overflow: on the
non-zero path a boolean divisor coerces to 1, and a boolean dividend is 0
or 1, so the quotient always fits. -/
def divValues : EvalResult → EvalResult → Res EvalResult
  | EvalResult.CInt a, EvalResult.CInt b =>
      if b = 0 then some (Except.error "Division by zero")
      else if a = -2 ^ 31 ∧ b = -1 then Option.none
      else some (Except.ok (EvalResult.CInt (wrap32 (Int.tdiv a b))))
  | EvalResult.CReal a, EvalResult.CReal b =>
      if b = 0 then some (Except.error "Division by zero")
      else some (Except.ok (EvalResult.CReal (a / b)))
  | EvalResult.CInt a, EvalResult.CReal b =>
      if b = 0 then some (Except.error "Division by zero")
      else some (Except.ok (EvalResult.CReal ((a : Rat) / b)))
  | EvalResult.CReal a, EvalResult.CInt b =>
      if b = 0 then some (Except.error "Division by zero")
      else some (Except.ok (EvalResult.CReal (a / (b : Rat))))
  | EvalResult.CInt a, EvalResult.Bool b =>
      if b = false then some (Except.error "Division by zero")
      else some (Except.ok (EvalResult.CInt (wrap32 (Int.tdiv a (boolToInt b)))))
  | EvalResult.CReal a, EvalResult.Bool b =>
      if b = false then some (Except.error "Division by zero")
      else some (Except.ok (EvalResult.CReal (a / (boolToInt b : Rat))))
  | EvalResult.Bool a, EvalResult.CInt b =>
      if b = 0 then some (Except.error "Division by zero")
      else some (Except.ok (EvalResult.CInt (wrap32 (Int.tdiv (boolToInt a) b))))
  | EvalResult.Bool a, EvalResult.CReal b =>
      if b = 0 then some (Except.error "Division by zero")
      else some (Except.ok (EvalResult.CReal ((boolToInt a : Rat) / b)))
  | EvalResult.Bool a, EvalResult.Bool b =>
      if b = false then some (Except.error "Division by zero")
      else some (Except.ok (EvalResult.CInt (wrap32 (Int.tdiv (boolToInt a) (boolToInt b)))))
  | EvalResult.List _, _ => some (Except.error "Div not supported for list")
  | _, EvalResult.List _ => some (Except.error "Div not supported for list")
  | EvalResult.None, _ => some (Except.error "Div is not supported for 'None'")
  | _, EvalResult.None => some (Except.error "Div is not supported for 'None'")

/-- Fueled worker for the ascending range loop
`for i in (start..stop).step_by(step)`: emit the current value while it is
strictly below `stop`, then advance by `step`.  The fuel is structural only;
`rangeAsc` supplies enough of it for every positive step. -/
def rangeAscGo : Nat → Int → Int → Int → List Int
  | 0, _, _, _ => []
  | fuel + 1, start, stop, step =>
      if start < stop then start :: rangeAscGo fuel (start + step) stop step else []

/-- `(start..stop).step_by(step)` for a positive `step`: the integers
`start, start + step, start + 2*step, …` strictly below `stop`. -/
def rangeAsc (start stop step : Int) : List Int :=
  rangeAscGo (stop - start).toNat start stop step

/-- Fueled worker for the descending range loop
`for i in (lo..=start).rev().step_by(step)`: emit the current value while it
is at least `lo`, then step down by `step`. -/
def rangeDescGo : Nat → Int → Int → Int → List Int
  | 0, _, _, _ => []
  | fuel + 1, start, lo, step =>
      if lo ≤ start then start :: rangeDescGo fuel (start - step) lo step else []

/-- `(lo..=start).rev().step_by(step)` for a positive `step`: the integers
`start, start - step, start - 2*step, …` down to but not below `lo`. -/
def rangeDesc (start lo step : Int) : List Int :=
  rangeDescGo (start - lo + 1).toNat start lo step

/-- The pure tail of the `Range` branch (interpreter.rs lines 369-437): the
eight-case `CInt`/`Bool` conversion of the three evaluated parameters
(`asIntOpt`), the signum dispatch on the increment, and the two loops. -/
def rangeValues (srtV endV incrV : EvalResult) : Except String EvalResult :=
  match asIntOpt srtV, asIntOpt endV, asIntOpt incrV with
  | some i, some j, some k =>
      if k = 0 then Except.error "Increment cannot be zero"
      else if k < 0 then
        Except.ok (EvalResult.List
          ((rangeDesc i (wrap32 (j + wrapAbs k)) (wrapAbs k)).map EvalResult.CInt))
      else
        Except.ok (EvalResult.List ((rangeAsc i j k).map EvalResult.CInt))
  | _, _, _ => Except.error "Parameters cannot be converted to integer"

/-- The return-kind check at the end of a function call (both the with-body
and the body-less paths, interpreter.rs lines 308-326 and 333-343). -/
def checkReturn (name : String) (kind result : EvalResult) : Except String EvalResult :=
  match kind, result with
  | EvalResult.CInt _, EvalResult.CInt v => Except.ok (EvalResult.CInt v)
  | EvalResult.CReal _, EvalResult.CReal v => Except.ok (EvalResult.CReal v)
  | EvalResult.Bool _, EvalResult.Bool v => Except.ok (EvalResult.Bool v)
  | EvalResult.List _, EvalResult.List v => Except.ok (EvalResult.List v)
  | EvalResult.None, EvalResult.None => Except.ok EvalResult.None
  | _, _ => Except.error (name ++ " returned a value different from specified type")

/-- The parameter-kind check of the argument-binding loop (interpreter.rs
lines 286-299): the declared tag and the evaluated argument must have the
same scalar/list kind; on success the argument is stored. -/
def checkParam (ptype v : EvalResult) : Except String EnvValue :=
  match ptype, v with
  | EvalResult.CInt _, EvalResult.CInt w => Except.ok (EnvValue.CInt w)
  | EvalResult.CReal _, EvalResult.CReal w => Except.ok (EnvValue.CReal w)
  | EvalResult.Bool _, EvalResult.Bool w => Except.ok (EnvValue.Bool w)
  | EvalResult.List _, EvalResult.List w => Except.ok (EnvValue.List w)
  | _, _ => Except.error ("Mismatched types for " ++ debugRepr ptype)

/-- The element loop of the `List` branch (interpreter.rs lines 51-60): each
item is evaluated and must match the kind of the (already evaluated) first
item, else "List must be homogeneous". -/
def evalItems (ev : Expression → Environment → Res EvalResult)
    (env : Environment) (first : EvalResult) :
    List Expression → Res (List EvalResult)
  | [] => some (Except.ok [])
  | item :: rest =>
      bindR (ev item env) fun v =>
        if sameKind first v then
          bindR (evalItems ev env first rest) fun vs => some (Except.ok (v :: vs))
        else some (Except.error "List must be homogeneous")

/-- The argument-binding loop of a function call (interpreter.rs lines
283-301): for each (parameter, argument) pair of the zip, evaluate the
argument against the caller's environment `callerEnv` and insert the checked
value into the accumulating function environment. -/
def bindParams (ev : Expression → Environment → Res EvalResult)
    (callerEnv : Environment) :
    List ((String × EvalResult) × Expression) → Environment → Res Environment
  | [], fenv => some (Except.ok fenv)
  | ((pname, ptype), arg) :: rest, fenv =>
      bindR (ev arg callerEnv) fun v =>
        match checkParam ptype v with
        | Except.ok w => bindParams ev callerEnv rest (insertEnv fenv pname w)
        | Except.error e => some (Except.error e)

/-- The iteration loop of `For` (interpreter.rs lines 516-535): bind the loop
variable to the element's storable form, run the body, carry the environment
into the next iteration. -/
def forLoop (ex : Statement → Environment → Res Environment)
    (var : String) (body : Statement) :
    List EvalResult → Environment → Res Environment
  | [], env => some (Except.ok env)
  | item :: rest, env =>
      bindR (ex body (insertEnv env var (storeValue item))) fun env2 =>
        forLoop ex var body rest env2

/-- One unfolding of the expression evaluator: `ev`/`ex` are the evaluator
and executor available for recursive calls (one fuel level down). -/
def evalE (ev : Expression → Environment → Res EvalResult)
    (ex : Statement → Environment → Res Environment) :
    Expression → Environment → Res EvalResult := fun exp env =>
  match exp with
  | Expression.CInt v => some (Except.ok (EvalResult.CInt v))
  | Expression.CReal v => some (Except.ok (EvalResult.CReal v))
  | Expression.Bool v => some (Except.ok (EvalResult.Bool v))
  | Expression.None => some (Except.ok EvalResult.None)
  | Expression.List items =>
      match items with
      | [] => some (Except.error "List initialization must have at least one element")
      | i0 :: _ =>
          bindR (ev i0 env) fun first =>
            bindR (evalItems ev env first items) fun vs =>
              some (Except.ok (EvalResult.List vs))
  | Expression.Add lhs rhs =>
      bindR (ev lhs env) fun lv =>
        bindR (ev rhs env) fun rv => some (addValues lv rv)
  | Expression.Sub lhs rhs =>
      bindR (ev lhs env) fun lv =>
        bindR (ev rhs env) fun rv => some (subValues lv rv)
  | Expression.Mul lhs rhs =>
      bindR (ev lhs env) fun lv =>
        bindR (ev rhs env) fun rv => some (mulValues lv rv)
  | Expression.Div lhs rhs =>
      bindR (ev lhs env) fun lv =>
        bindR (ev rhs env) fun rv => divValues lv rv
  | Expression.Var name =>
      match lookupEnv env name with
      | some (EnvValue.CInt v) => some (Except.ok (EvalResult.CInt v))
      | some (EnvValue.CReal v) => some (Except.ok (EvalResult.CReal v))
      | some (EnvValue.Bool v) => some (Except.ok (EvalResult.Bool v))
      | some (EnvValue.List v) => some (Except.ok (EvalResult.List v))
      | some EnvValue.None => some (Except.ok EvalResult.None)
      | _ => some (Except.error ("Variable " ++ name ++ " not found"))
  | Expression.FuncCall name args =>
      match lookupEnv env name with
      | some (EnvValue.Func kind params stmt retrn) =>
          let newParams := params.getD []
          let newArgs := args.getD []
          if newArgs.length ≠ newParams.length then
            some (Except.error (name ++ " requires " ++ toString newParams.length
              ++ " arguments, got " ++ toString newArgs.length))
          else
            bindR (bindParams ev env (newParams.zip newArgs) env) fun funcEnv =>
              match stmt with
              | some body =>
                  match ex body funcEnv with
                  | Option.none => Option.none
                  | some (Except.error err) =>
                      some (Except.error (name ++ " generated an error: " ++ err))
                  | some (Except.ok resultEnv) =>
                      bindR (ev retrn resultEnv) fun result =>
                        some (checkReturn name kind result)
              | Option.none =>
                  bindR (ev retrn funcEnv) fun result =>
                    some (checkReturn name kind result)
      | _ => some (Except.error (name ++ " is not defined"))
  | Expression.Range m1 stop m3 =>
      bindR (ev stop env) fun endV =>
        bindR (ev (Expression.CInt 0) env) fun srtDefault =>
          bindR (ev (Expression.CInt 1) env) fun incrDefault =>
            bindR (match m1 with
                   | Option.none => some (Except.ok srtDefault)
                   | some e1 => ev e1 env) fun srtV =>
              bindR (match m3 with
                     | Option.none => some (Except.ok incrDefault)
                     | some e3 => ev e3 env) fun incrV =>
                some (rangeValues srtV endV incrV)

/-- One unfolding of the statement executor. -/
def execS (ev : Expression → Environment → Res EvalResult)
    (ex : Statement → Environment → Res Environment) :
    Statement → Environment → Res Environment := fun stmt env =>
  match stmt with
  | Statement.Assignment name exp =>
      bindR (ev exp env) fun v => some (Except.ok (insertEnv env name (storeValue v)))
  | Statement.IfThenElse cond thenStmt elseStmt =>
      match ev cond env with
      | Option.none => Option.none
      | some (Except.error s) =>
          some (Except.error ("Condition resulted in an error: " ++ s))
      | some (Except.ok v) =>
          if truthy v then ex thenStmt env else ex elseStmt env
  | Statement.While cond body =>
      match ev cond env with
      | Option.none => Option.none
      | some (Except.error s) =>
          some (Except.error ("Condition resulted in an error: " ++ s))
      | some (Except.ok v) =>
          if truthy v then
            bindR (ex body env) fun env2 => ex (Statement.While cond body) env2
          else some (Except.ok env)
  | Statement.Func name kind params body ret =>
      some (Except.ok (insertEnv env name (EnvValue.Func kind params body ret)))
  | Statement.For var exp body =>
      bindR (ev exp env) fun v =>
        match v with
        | EvalResult.List vec =>
            bindR (forLoop ex var body vec env) fun env2 =>
              some (Except.ok (removeEnv env2 var))
        | _ => some (Except.error "Expression must be an iterable object")
  | Statement.Sequence s1 s2 =>
      bindR (ex s1 env) fun env1 => ex s2 env1
  | Statement.VarDeclaration _ => some (Except.error "not implemented yet")
  | Statement.ValDeclaration _ => some (Except.error "not implemented yet")

/-- The fueled pair (evaluator, executor): fuel 0 is exhaustion, fuel `n+1`
is one unfolding with the fuel-`n` pair available for recursive calls. -/
def evalExecPair : Nat →
    ((Expression → Environment → Res EvalResult) ×
     (Statement → Environment → Res Environment))
  | 0 => (fun _ _ => Option.none, fun _ _ => Option.none)
  | n + 1 =>
      (evalE (evalExecPair n).1 (evalExecPair n).2,
       execS (evalExecPair n).1 (evalExecPair n).2)

/-- `eval` of interpreter.rs, with fuel. -/
def eval (fuel : Nat) (e : Expression) (env : Environment) : Res EvalResult :=
  (evalExecPair fuel).1 e env

/-- `execute` of interpreter.rs, with fuel. -/
def execute (fuel : Nat) (s : Statement) (env : Environment) : Res Environment :=
  (evalExecPair fuel).2 s env

theorem eval_succ (n : Nat) (e : Expression) (env : Environment) :
    eval (n + 1) e env = evalE (eval n) (execute n) e env := rfl

theorem execute_succ (n : Nat) (s : Statement) (env : Environment) :
    execute (n + 1) s env = execS (eval n) (execute n) s env := rfl

/-! ### Specification-side definitions (phrasing the claims' vocabulary) -/

/-- The scalar kinds of the coercion lattice: integer, real, boolean. -/
def isScalar : EvalResult → Prop
  | EvalResult.CInt _ => True
  | EvalResult.CReal _ => True
  | EvalResult.Bool _ => True
  | _ => False

/-- The coerced numeric value of a scalar (boolean as 0/1), used to phrase
"the right-hand operand's coerced numeric value is zero". -/
def numOf : EvalResult → Rat
  | EvalResult.CInt n => (n : Rat)
  | EvalResult.CReal q => q
  | EvalResult.Bool b => (boolToInt b : Rat)
  | _ => 0

/-- Modelled from the claim's coercion rules for division: same-kind integer
division truncates, mixed integer/real promotes to real, boolean is treated
as 0/1 and keeps the numeric side's kind (to be compared with the source's
`divValues`). -/
def divSpecVal : EvalResult → EvalResult → EvalResult
  | EvalResult.CInt a, EvalResult.CInt b => EvalResult.CInt (wrap32 (Int.tdiv a b))
  | EvalResult.CReal a, EvalResult.CReal b => EvalResult.CReal (a / b)
  | EvalResult.CInt a, EvalResult.CReal b => EvalResult.CReal ((a : Rat) / b)
  | EvalResult.CReal a, EvalResult.CInt b => EvalResult.CReal (a / (b : Rat))
  | EvalResult.CInt a, EvalResult.Bool b =>
      EvalResult.CInt (wrap32 (Int.tdiv a (boolToInt b)))
  | EvalResult.CReal a, EvalResult.Bool b => EvalResult.CReal (a / (boolToInt b : Rat))
  | EvalResult.Bool a, EvalResult.CInt b =>
      EvalResult.CInt (wrap32 (Int.tdiv (boolToInt a) b))
  | EvalResult.Bool a, EvalResult.CReal b => EvalResult.CReal ((boolToInt a : Rat) / b)
  | EvalResult.Bool a, EvalResult.Bool b =>
      EvalResult.CInt (wrap32 (Int.tdiv (boolToInt a) (boolToInt b)))
  | _, _ => EvalResult.None

/-- The single division-overflow input: both operands integers, the left
`i32::MIN` and the right `-1`, where Rust's `/` aborts in every build
mode. -/
def divOverflow : EvalResult → EvalResult → Bool
  | EvalResult.CInt a, EvalResult.CInt b => decide (a = -2 ^ 31) && decide (b = -1)
  | _, _ => false

/-- Pairwise kind-compatibility of a list's elements (the §4.2 tag-matching
rule, applied to every pair of elements). -/
def homAll (l : List EvalResult) : Prop :=
  ∀ a ∈ l, ∀ b ∈ l, sameKind a b = true

/-- Modelled from the spec: "the ascending range over `[stop + |step|,
start]` with the same stride magnitude" — an ascending range over a closed
interval `[lo, hi]` with stride `k` (to be compared with the source's
descending walk). -/
def specAscClosed (lo hi k : Int) : List Int := rangeAsc lo (hi + 1) k

/-- The list of (name, stored value) bindings a call's argument-binding loop
produces, computed from the caller's environment alone. -/
def computeBindings (ev : Expression → Environment → Res EvalResult)
    (callerEnv : Environment) :
    List ((String × EvalResult) × Expression) → Res (List (String × EnvValue))
  | [] => some (Except.ok [])
  | ((pname, ptype), arg) :: rest =>
      bindR (ev arg callerEnv) fun v =>
        match checkParam ptype v with
        | Except.ok w =>
            bindR (computeBindings ev callerEnv rest) fun bs =>
              some (Except.ok ((pname, w) :: bs))
        | Except.error e => some (Except.error e)

/-- Applying a binding list to an environment, in order. -/
def insertAllEnv (acc : Environment) (bs : List (String × EnvValue)) : Environment :=
  bs.foldl (fun e p => insertEnv e p.1 p.2) acc

/-! ### Helper lemmas -/

theorem wrap32_eq_self {n : Int} (h1 : -2 ^ 31 ≤ n) (h2 : n < 2 ^ 31) :
    wrap32 n = n := by
  unfold wrap32
  omega

theorem lookupEnv_removeEnv (env : Environment) (n : Name) :
    lookupEnv (removeEnv env n) n = Option.none := by
  induction env with
  | nil => rfl
  | cons hd tl ih =>
      obtain ⟨k, w⟩ := hd
      by_cases hk : k = n
      · simp [removeEnv, hk, ih]
      · simp [removeEnv, lookupEnv, hk, ih]

theorem sameKind_trans {x a b : EvalResult}
    (h1 : sameKind x a = true) (h2 : sameKind x b = true) :
    sameKind a b = true := by
  cases x <;> cases a <;> cases b <;> simp_all [sameKind]

/-- Every value accepted by the homogeneity loop matches the first item's
kind. -/
theorem evalItems_sound (ev : Expression → Environment → Res EvalResult)
    (env : Environment) (first : EvalResult) :
    ∀ (items : List Expression) (vs : List EvalResult),
      evalItems ev env first items = some (Except.ok vs) →
      ∀ x ∈ vs, sameKind first x = true := by
  intro items
  induction items with
  | nil =>
      intro vs h x hx
      simp [evalItems] at h
      subst h
      simp at hx
  | cons item rest ih =>
      intro vs h x hx
      simp only [evalItems] at h
      cases hv : ev item env with
      | none => rw [hv] at h; simp [bindR] at h
      | some r =>
          cases r with
          | error e => rw [hv] at h; simp [bindR] at h
          | ok v =>
              rw [hv] at h
              simp only [bindR] at h
              by_cases hsk : sameKind first v = true
              · rw [if_pos hsk] at h
                cases hrest : evalItems ev env first rest with
                | none => rw [hrest] at h; simp [bindR] at h
                | some r2 =>
                    cases r2 with
                    | error e2 => rw [hrest] at h; simp [bindR] at h
                    | ok vs2 =>
                        rw [hrest] at h
                        simp [bindR] at h
                        subst h
                        rcases List.mem_cons.mp hx with hx1 | hx2
                        · subst hx1; exact hsk
                        · exact ih vs2 hrest x hx2
              · rw [if_neg hsk] at h
                simp at h

/-- The homogeneity loop succeeds on items that all evaluate to values of the
first item's kind, returning them in order. -/
theorem evalItems_ok (ev : Expression → Environment → Res EvalResult)
    (env : Environment) (first : EvalResult)
    {items : List Expression} {vs : List EvalResult}
    (h : List.Forall₂ (fun e v => ev e env = some (Except.ok v)) items vs)
    (hk : ∀ v ∈ vs, sameKind first v = true) :
    evalItems ev env first items = some (Except.ok vs) := by
  induction h with
  | nil => rfl
  | @cons e v es vs2 h1 _h2 ih =>
      have hv : sameKind first v = true := hk v (List.mem_cons_self v vs2)
      have hrest : ∀ w ∈ vs2, sameKind first w = true :=
        fun w hw => hk w (List.mem_cons_of_mem v hw)
      simp [evalItems, h1, bindR, hv, ih hrest]

/-- The homogeneity loop fails with "List must be homogeneous" when all items
evaluate but some value does not match the first item's kind. -/
theorem evalItems_err (ev : Expression → Environment → Res EvalResult)
    (env : Environment) (first : EvalResult)
    {items : List Expression} {vs : List EvalResult}
    (h : List.Forall₂ (fun e v => ev e env = some (Except.ok v)) items vs)
    (hbad : ∃ v ∈ vs, sameKind first v = false) :
    evalItems ev env first items = some (Except.error "List must be homogeneous") := by
  induction h with
  | nil => simp at hbad
  | @cons e v es vs2 h1 h2 ih =>
      by_cases hv : sameKind first v = true
      · have hbad2 : ∃ w ∈ vs2, sameKind first w = false := by
          rcases hbad with ⟨w, hw, hwf⟩
          rcases List.mem_cons.mp hw with h | h
          · subst h; rw [hv] at hwf; cases hwf
          · exact ⟨w, h, hwf⟩
        simp [evalItems, h1, bindR, hv, ih hbad2]
      · simp [evalItems, h1, bindR, hv]

/-- Element characterization of the ascending range walk: position `m` holds
`start + step * m` exactly while that value is strictly below `stop`. -/
theorem rangeAscGo_get {step : Int} (hstep : 0 < step) :
    ∀ (fuel : Nat) (start stop : Int), (stop - start).toNat ≤ fuel →
      ∀ m : Nat, (rangeAscGo fuel start stop step)[m]?
        = if start + step * m < stop then some (start + step * m) else Option.none := by
  intro fuel
  induction fuel with
  | zero =>
      intro start stop h m
      have hmul : (0 : Int) ≤ step * m :=
        mul_nonneg hstep.le (Int.natCast_nonneg m)
      have hc : ¬(start + step * m < stop) := by omega
      simp [rangeAscGo, hc]
  | succ n ih =>
      intro start stop h m
      by_cases hlt : start < stop
      · cases m with
        | zero => simp [rangeAscGo, hlt]
        | succ m2 =>
            have hmain := ih (start + step) stop (by omega) m2
            have harith : start + step + step * (m2 : Int)
                = start + step * ((m2 : Int) + 1) := by ring
            simp only [rangeAscGo, if_pos hlt, List.getElem?_cons_succ]
            rw [hmain, harith]
            push_cast
            ring_nf
      · have hmul : (0 : Int) ≤ step * m :=
          mul_nonneg hstep.le (Int.natCast_nonneg m)
        have hc : ¬(start + step * m < stop) := by omega
        simp [rangeAscGo, hlt, hc]

theorem rangeAsc_get {step : Int} (hstep : 0 < step) (start stop : Int) (m : Nat) :
    (rangeAsc start stop step)[m]?
      = if start + step * m < stop then some (start + step * m) else Option.none :=
  rangeAscGo_get hstep _ start stop le_rfl m

/-- Element characterization of the descending range walk: position `m` holds
`start - step * m` exactly while that value is at least `lo`. -/
theorem rangeDescGo_get {step : Int} (hstep : 0 < step) :
    ∀ (fuel : Nat) (start lo : Int), (start - lo + 1).toNat ≤ fuel →
      ∀ m : Nat, (rangeDescGo fuel start lo step)[m]?
        = if lo ≤ start - step * m then some (start - step * m) else Option.none := by
  intro fuel
  induction fuel with
  | zero =>
      intro start lo h m
      have hmul : (0 : Int) ≤ step * m :=
        mul_nonneg hstep.le (Int.natCast_nonneg m)
      have hc : ¬(lo ≤ start - step * m) := by omega
      simp [rangeDescGo, hc]
  | succ n ih =>
      intro start lo h m
      by_cases hle : lo ≤ start
      · cases m with
        | zero => simp [rangeDescGo, hle]
        | succ m2 =>
            have hmain := ih (start - step) lo (by omega) m2
            have harith : start - step - step * (m2 : Int)
                = start - step * ((m2 : Int) + 1) := by ring
            simp only [rangeDescGo, if_pos hle, List.getElem?_cons_succ]
            rw [hmain, harith]
            push_cast
            ring_nf
      · have hmul : (0 : Int) ≤ step * m :=
          mul_nonneg hstep.le (Int.natCast_nonneg m)
        have hc : ¬(lo ≤ start - step * m) := by omega
        simp [rangeDescGo, hle, hc]

theorem rangeDesc_get {step : Int} (hstep : 0 < step) (start lo : Int) (m : Nat) :
    (rangeDesc start lo step)[m]?
      = if lo ≤ start - step * m then some (start - step * m) else Option.none :=
  rangeDescGo_get hstep _ start lo le_rfl m

theorem bindR_eq_some_ok {α β : Type} {r : Res α} {f : α → Res β} {v : β}
    (h : bindR r f = some (Except.ok v)) :
    ∃ a, r = some (Except.ok a) ∧ f a = some (Except.ok v) := by
  cases r with
  | none => simp [bindR] at h
  | some x =>
      cases x with
      | error e => simp [bindR] at h
      | ok a => exact ⟨a, rfl, h⟩

theorem sameKind_symm (a b : EvalResult) : sameKind a b = sameKind b a := by
  cases a <;> cases b <;> rfl

theorem homAll_map_CInt (l : List Int) : homAll (l.map EvalResult.CInt) := by
  intro a ha b hb
  simp only [List.mem_map] at ha hb
  obtain ⟨x, _, rfl⟩ := ha
  obtain ⟨y, _, rfl⟩ := hb
  rfl

theorem mem_repeatList {x : EvalResult} {n : Int} {l : List EvalResult}
    (h : x ∈ repeatList n l) : x ∈ l := by
  unfold repeatList at h
  rcases List.mem_flatten.mp h with ⟨s, hs, hx⟩
  rw [List.eq_of_mem_replicate hs] at hx
  exact hx

/-! ### Claim theorems -/

/-- C4: for all 32-bit integers `a` and `b`, evaluating
`Add(CInt(a), CInt(b))` in any environment succeeds and returns `CInt` of
the fixed-width 32-bit sum: it is congruent to `a + b` modulo `2^32` and
lies in the two's-complement range `[-2^31, 2^31)`. -/
theorem C4_add_wrapping (fuel : Nat) (env : Environment) (a b : Int)
    (ha1 : -2 ^ 31 ≤ a) (ha2 : a < 2 ^ 31) (hb1 : -2 ^ 31 ≤ b) (hb2 : b < 2 ^ 31) :
    eval (fuel + 2) (Expression.Add (Expression.CInt a) (Expression.CInt b)) env
      = some (Except.ok (EvalResult.CInt (wrap32 (a + b))))
    ∧ wrap32 (a + b) % 2 ^ 32 = (a + b) % 2 ^ 32
    ∧ -2 ^ 31 ≤ wrap32 (a + b) ∧ wrap32 (a + b) < 2 ^ 31 := by
  refine ⟨?_, ?_, ?_, ?_⟩
  · simp [eval_succ, evalE, bindR, addValues]
  · unfold wrap32; omega
  · unfold wrap32; omega
  · unfold wrap32; omega

theorem C4_add_wrapping_witness :
    eval 2 (Expression.Add (Expression.CInt 2147483647) (Expression.CInt 1)) []
      = some (Except.ok (EvalResult.CInt (wrap32 (2147483647 + 1))))
    ∧ wrap32 (2147483647 + 1) % 2 ^ 32 = ((2147483647 : Int) + 1) % 2 ^ 32
    ∧ -2 ^ 31 ≤ wrap32 (2147483647 + 1) ∧ wrap32 (2147483647 + 1) < 2 ^ 31 :=
  C4_add_wrapping 0 [] 2147483647 1 (by decide) (by decide) (by decide) (by decide)

/-- C7: variable lookup fails with "Variable <name> not found" both when the
name is absent and when it is bound to a function value; any other binding
(integer, real, boolean, list, empty marker) is returned unchanged. -/
theorem C7_var_lookup (fuel : Nat) (env : Environment) (name : String) :
    (lookupEnv env name = Option.none →
      eval (fuel + 1) (Expression.Var name) env
        = some (Except.error ("Variable " ++ name ++ " not found")))
    ∧ (∀ k p b r, lookupEnv env name = some (EnvValue.Func k p b r) →
        eval (fuel + 1) (Expression.Var name) env
          = some (Except.error ("Variable " ++ name ++ " not found")))
    ∧ (∀ v w, lookupEnv env name = some v → toEval v = some w →
        eval (fuel + 1) (Expression.Var name) env = some (Except.ok w)) := by
  refine ⟨?_, ?_, ?_⟩
  · intro h
    simp [eval_succ, evalE, h]
  · intro k p b r h
    simp [eval_succ, evalE, h]
  · intro v w hv hw
    cases v <;> simp [toEval] at hw <;> subst hw <;> simp [eval_succ, evalE, hv]

theorem C7_var_lookup_witness :
    eval 1 (Expression.Var "x") [] = some (Except.error ("Variable " ++ "x" ++ " not found")) :=
  (C7_var_lookup 0 [] "x").1 rfl

/-- C9: if evaluating a while-loop's condition fails with error `e` against
the current environment, execution of the while-statement fails with the
wrapped message "Condition resulted in an error: <e>".  The unfolding of
`execute` on `While` applies this at the first and at every later iteration,
since each iteration re-enters `execute` on the same `While` node with the
body's resulting environment. -/
theorem C9_while_condition_error (fuel : Nat) (cond : Expression) (body : Statement)
    (env : Environment) (e : String)
    (h : eval fuel cond env = some (Except.error e)) :
    execute (fuel + 1) (Statement.While cond body) env
      = some (Except.error ("Condition resulted in an error: " ++ e)) := by
  simp [execute_succ, execS, h]

theorem C9_while_condition_error_witness :
    execute 2 (Statement.While (Expression.Var "z") (Statement.Assignment "a" (Expression.CInt 0))) []
      = some (Except.error ("Condition resulted in an error: "
          ++ ("Variable " ++ "z" ++ " not found"))) :=
  C9_while_condition_error 1 (Expression.Var "z") (Statement.Assignment "a" (Expression.CInt 0))
    [] ("Variable " ++ "z" ++ " not found") rfl

/-- C8: after a successful for-loop execution the loop variable is absent
from the returned environment (whatever the list, including the empty one,
and whether or not the variable was bound before); and when the iterable
expression evaluates to a non-list value, execution fails with "Expression
must be an iterable object". -/
theorem C8_for_loop_variable (var : String) (e : Expression) (body : Statement)
    (env : Environment) :
    (∀ (fuel : Nat) (env2 : Environment),
        execute fuel (Statement.For var e body) env = some (Except.ok env2) →
        lookupEnv env2 var = Option.none)
    ∧ (∀ (fuel : Nat) (v : EvalResult),
        eval fuel e env = some (Except.ok v) → (∀ l, v ≠ EvalResult.List l) →
        execute (fuel + 1) (Statement.For var e body) env
          = some (Except.error "Expression must be an iterable object")) := by
  constructor
  · intro fuel env2 h
    cases fuel with
    | zero => simp [execute, evalExecPair] at h
    | succ n =>
        rw [execute_succ] at h
        simp only [execS] at h
        cases hv : eval n e env with
        | none => rw [hv] at h; simp [bindR] at h
        | some r =>
            cases r with
            | error e2 => rw [hv] at h; simp [bindR] at h
            | ok v =>
                rw [hv] at h
                simp only [bindR] at h
                cases v with
                | List vec =>
                    simp only [] at h
                    cases hloop : forLoop (execute n) var body vec env with
                    | none => rw [hloop] at h; simp [bindR] at h
                    | some r2 =>
                        cases r2 with
                        | error e3 => rw [hloop] at h; simp [bindR] at h
                        | ok env3 =>
                            rw [hloop] at h
                            simp [bindR] at h
                            subst h
                            exact lookupEnv_removeEnv env3 var
                | CInt w => simp at h
                | CReal w => simp at h
                | Bool w => simp at h
                | None => simp at h
  · intro fuel v hv hnl
    rw [execute_succ]
    cases v with
    | List l => exact absurd rfl (hnl l)
    | CInt w => simp [execS, hv, bindR]
    | CReal w => simp [execS, hv, bindR]
    | Bool w => simp [execS, hv, bindR]
    | None => simp [execS, hv, bindR]

theorem C8_for_loop_variable_witness :
    lookupEnv [("a", EnvValue.CInt 0)] "i" = Option.none :=
  (C8_for_loop_variable "i" (Expression.List [Expression.CInt 1])
      (Statement.Assignment "a" (Expression.CInt 0)) [("i", EnvValue.CInt 99)]).1
    3 [("a", EnvValue.CInt 0)] rfl

/-- `divValues` factored through the claim's vocabulary: zero test on the
coerced numeric value, the single overflow abort, else the quotient. -/
theorem divValues_spec (va vb : EvalResult) (hsa : isScalar va) (hsb : isScalar vb) :
    divValues va vb
      = if numOf vb = 0 then some (Except.error "Division by zero")
        else if divOverflow va vb then Option.none
        else some (Except.ok (divSpecVal va vb)) := by
  cases va <;> simp only [isScalar] at hsa
  · cases vb <;> simp only [isScalar] at hsb
    · rename_i x y
      rcases eq_or_ne y 0 with hy | hy
      · simp [divValues, divOverflow, divSpecVal, numOf, hy]
      · by_cases hov : x = -2 ^ 31 ∧ y = -1
        · obtain ⟨hx1, hy1⟩ := hov
          subst hx1
          subst hy1
          simp [divValues, divOverflow, divSpecVal, numOf]
        · simp [divValues, divOverflow, divSpecVal, numOf, hy, hov, Int.cast_eq_zero]
    · rename_i y
      rcases eq_or_ne y 0 with hy | hy <;>
        simp [divValues, divOverflow, divSpecVal, numOf, hy]
    · rename_i y
      cases y <;> simp [divValues, divOverflow, divSpecVal, numOf, boolToInt]
  · cases vb <;> simp only [isScalar] at hsb
    · rename_i y
      rcases eq_or_ne y 0 with hy | hy <;>
        simp [divValues, divOverflow, divSpecVal, numOf, hy, Int.cast_eq_zero]
    · rename_i y
      rcases eq_or_ne y 0 with hy | hy <;>
        simp [divValues, divOverflow, divSpecVal, numOf, hy]
    · rename_i y
      cases y <;> simp [divValues, divOverflow, divSpecVal, numOf, boolToInt]
  · cases vb <;> simp only [isScalar] at hsb
    · rename_i y
      rcases eq_or_ne y 0 with hy | hy <;>
        simp [divValues, divOverflow, divSpecVal, numOf, hy, Int.cast_eq_zero]
    · rename_i y
      rcases eq_or_ne y 0 with hy | hy <;>
        simp [divValues, divOverflow, divSpecVal, numOf, hy]
    · rename_i y
      cases y <;> simp [divValues, divOverflow, divSpecVal, numOf, boolToInt]

/-- C3 counterexample: at `Div(CInt(-2^31), CInt(-1))` the divisor's coerced
numeric value is not zero, yet the program does not succeed with a quotient:
Rust's integer `/` overflows and aborts in every build mode, so no `Result`
is produced (`Option.none`).  The third conjunct shows the same fuel
suffices for a neighbouring input, so the absent result is the abort, not
fuel exhaustion. -/
theorem C3_division_by_zero_counterexample :
    eval 2 (Expression.Div (Expression.CInt (-2147483648)) (Expression.CInt (-1))) []
      = Option.none
    ∧ numOf (EvalResult.CInt (-1)) ≠ 0
    ∧ eval 2 (Expression.Div (Expression.CInt (-2147483648)) (Expression.CInt (-2))) []
      = some (Except.ok (EvalResult.CInt 1073741824)) := by
  refine ⟨rfl, ?_, rfl⟩
  norm_num [numOf]

/-- C3 (amended): for scalar operands (integer, real, boolean), a `Div`
node fails with "Division by zero" exactly when the right-hand operand's
coerced numeric value is zero; otherwise it succeeds with the quotient
under the coercion rules (`divSpecVal`, written from the claim's wording) —
except at the single overflow input where both operands are integers, the
left is `-2^31` and the right is `-1`: there Rust's division aborts and no
result is produced. -/
theorem C3_division_by_zero (fuel : Nat) (a b : Expression) (env : Environment)
    (va vb : EvalResult)
    (hva : eval fuel a env = some (Except.ok va))
    (hvb : eval fuel b env = some (Except.ok vb))
    (hsa : isScalar va) (hsb : isScalar vb) :
    eval (fuel + 1) (Expression.Div a b) env
      = if numOf vb = 0 then some (Except.error "Division by zero")
        else if divOverflow va vb then Option.none
        else some (Except.ok (divSpecVal va vb)) := by
  rw [eval_succ]
  simp only [evalE, hva, hvb, bindR]
  rw [divValues_spec va vb hsa hsb]

theorem C3_division_by_zero_witness :
    eval 2 (Expression.Div (Expression.CInt 7) (Expression.CInt 2)) []
      = if numOf (EvalResult.CInt 2) = 0 then some (Except.error "Division by zero")
        else if divOverflow (EvalResult.CInt 7) (EvalResult.CInt 2) then Option.none
        else some (Except.ok (divSpecVal (EvalResult.CInt 7) (EvalResult.CInt 2))) :=
  C3_division_by_zero 1 (Expression.CInt 7) (Expression.CInt 2) []
    (EvalResult.CInt 7) (EvalResult.CInt 2) rfl rfl trivial trivial

/-- C5 counterexample: a list whose first (and only) element evaluates to
the empty marker fails with "List must be homogeneous", although no
subsequent element evaluates to a different kind — the claim promises
success there, but `(None, None)` falls into the homogeneity match's
catch-all arm.  The second conjunct shows the element itself evaluates
fine, to the empty marker. -/
theorem C5_list_construction_counterexample :
    eval 2 (Expression.List [Expression.None]) []
      = some (Except.error "List must be homogeneous")
    ∧ eval 1 Expression.None [] = some (Except.ok EvalResult.None) := ⟨rfl, rfl⟩

/-- C5 (amended): an empty list literal fails with "List initialization
must have at least one element"; a non-empty one whose elements all
evaluate to values matching the first element's kind (a match only the
integer, real, boolean and list kinds can satisfy) succeeds with the
evaluated elements in order; one where some element evaluates to a
non-matching kind fails with "List must be homogeneous"; and in particular
a list whose first element evaluates to the empty marker always fails with
"List must be homogeneous", because the empty marker matches no kind, not
even itself. -/
theorem C5_list_construction (fuel : Nat) (env : Environment) :
    (eval (fuel + 1) (Expression.List []) env
       = some (Except.error "List initialization must have at least one element"))
    ∧ (∀ (i0 : Expression) (irest : List Expression) (v0 : EvalResult) (vrest : List EvalResult),
        eval fuel i0 env = some (Except.ok v0) →
        List.Forall₂ (fun e v => eval fuel e env = some (Except.ok v)) (i0 :: irest) (v0 :: vrest) →
        (∀ v ∈ v0 :: vrest, sameKind v0 v = true) →
        eval (fuel + 1) (Expression.List (i0 :: irest)) env
          = some (Except.ok (EvalResult.List (v0 :: vrest))))
    ∧ (∀ (i0 : Expression) (irest : List Expression) (v0 : EvalResult) (vrest : List EvalResult),
        eval fuel i0 env = some (Except.ok v0) →
        List.Forall₂ (fun e v => eval fuel e env = some (Except.ok v)) (i0 :: irest) (v0 :: vrest) →
        (∃ v ∈ v0 :: vrest, sameKind v0 v = false) →
        eval (fuel + 1) (Expression.List (i0 :: irest)) env
          = some (Except.error "List must be homogeneous"))
    ∧ (∀ (i0 : Expression) (irest : List Expression),
        eval fuel i0 env = some (Except.ok EvalResult.None) →
        eval (fuel + 1) (Expression.List (i0 :: irest)) env
          = some (Except.error "List must be homogeneous")) := by
  refine ⟨?_, ?_, ?_, ?_⟩
  · rw [eval_succ]; rfl
  · intro i0 irest v0 vrest h0 hall hk
    rw [eval_succ]
    simp only [evalE, h0, bindR]
    rw [evalItems_ok (eval fuel) env v0 hall hk]
  · intro i0 irest v0 vrest h0 hall hbad
    rw [eval_succ]
    simp only [evalE, h0, bindR]
    rw [evalItems_err (eval fuel) env v0 hall hbad]
  · intro i0 irest h0
    rw [eval_succ]
    simp [evalE, evalItems, h0, bindR, sameKind]

/-- Evaluating a `Range` node with both optional parameters supplied reduces
to `rangeValues` on the three evaluated parameters. -/
theorem eval_range_explicit (fuel : Nat) (env : Environment) (e1 stop e3 : Expression)
    (v1 vstop v3 : EvalResult)
    (h1 : eval (fuel + 1) e1 env = some (Except.ok v1))
    (hstop : eval (fuel + 1) stop env = some (Except.ok vstop))
    (h3 : eval (fuel + 1) e3 env = some (Except.ok v3)) :
    eval (fuel + 1 + 1) (Expression.Range (some e1) stop (some e3)) env
      = some (rangeValues v1 vstop v3) := by
  rw [eval_succ]
  have h0 : eval (fuel + 1) (Expression.CInt 0) env
      = some (Except.ok (EvalResult.CInt 0)) := rfl
  have hone : eval (fuel + 1) (Expression.CInt 1) env
      = some (Except.ok (EvalResult.CInt 1)) := rfl
  simp only [evalE, hstop, h0, hone, h1, h3, bindR]

/-- C6: range parameter defaults and semantics.  Omitted start behaves as
the literal 0 and omitted step as the literal 1; with integer-or-boolean
parameters a positive step yields the ascending half-open walk, a zero step
fails with "Increment cannot be zero", and any parameter of another kind
fails with "Parameters cannot be converted to integer". -/
theorem C6_range_semantics (fuel : Nat) (env : Environment) :
    (∀ (stop : Expression) (m3 : Option Expression),
        eval (fuel + 1 + 1) (Expression.Range Option.none stop m3) env
          = eval (fuel + 1 + 1) (Expression.Range (some (Expression.CInt 0)) stop m3) env)
    ∧ (∀ (m1 : Option Expression) (stop : Expression),
        eval (fuel + 1 + 1) (Expression.Range m1 stop Option.none) env
          = eval (fuel + 1 + 1) (Expression.Range m1 stop (some (Expression.CInt 1))) env)
    ∧ (∀ (e1 stop e3 : Expression) (v1 vstop v3 : EvalResult),
        eval (fuel + 1) e1 env = some (Except.ok v1) →
        eval (fuel + 1) stop env = some (Except.ok vstop) →
        eval (fuel + 1) e3 env = some (Except.ok v3) →
        ∀ (i j : Int), asIntOpt v1 = some i → asIntOpt vstop = some j →
        asIntOpt v3 = some 0 →
        eval (fuel + 1 + 1) (Expression.Range (some e1) stop (some e3)) env
          = some (Except.error "Increment cannot be zero"))
    ∧ (∀ (e1 stop e3 : Expression) (v1 vstop v3 : EvalResult),
        eval (fuel + 1) e1 env = some (Except.ok v1) →
        eval (fuel + 1) stop env = some (Except.ok vstop) →
        eval (fuel + 1) e3 env = some (Except.ok v3) →
        ∀ (i j k : Int), asIntOpt v1 = some i → asIntOpt vstop = some j →
        asIntOpt v3 = some k → 0 < k →
        eval (fuel + 1 + 1) (Expression.Range (some e1) stop (some e3)) env
          = some (Except.ok (EvalResult.List ((rangeAsc i j k).map EvalResult.CInt)))
        ∧ ∀ m : Nat, (rangeAsc i j k)[m]?
            = if i + k * m < j then some (i + k * m) else Option.none)
    ∧ (∀ (e1 stop e3 : Expression) (v1 vstop v3 : EvalResult),
        eval (fuel + 1) e1 env = some (Except.ok v1) →
        eval (fuel + 1) stop env = some (Except.ok vstop) →
        eval (fuel + 1) e3 env = some (Except.ok v3) →
        (asIntOpt v1 = Option.none ∨ asIntOpt vstop = Option.none ∨
         asIntOpt v3 = Option.none) →
        eval (fuel + 1 + 1) (Expression.Range (some e1) stop (some e3)) env
          = some (Except.error "Parameters cannot be converted to integer")) := by
  have h0 : eval (fuel + 1) (Expression.CInt 0) env
      = some (Except.ok (EvalResult.CInt 0)) := rfl
  have hone : eval (fuel + 1) (Expression.CInt 1) env
      = some (Except.ok (EvalResult.CInt 1)) := rfl
  refine ⟨?_, ?_, ?_, ?_, ?_⟩
  · intro stop m3
    rw [eval_succ, eval_succ]
    simp only [evalE, h0, hone, bindR]
  · intro m1 stop
    rw [eval_succ, eval_succ]
    simp only [evalE, h0, hone, bindR]
  · intro e1 stop e3 v1 vstop v3 h1 hstop h3 i j hi hj hk
    rw [eval_range_explicit fuel env e1 stop e3 v1 vstop v3 h1 hstop h3]
    simp [rangeValues, hi, hj, hk]
  · intro e1 stop e3 v1 vstop v3 h1 hstop h3 i j k hi hj hk hkpos
    constructor
    · rw [eval_range_explicit fuel env e1 stop e3 v1 vstop v3 h1 hstop h3]
      simp [rangeValues, hi, hj, hk, hkpos.ne', not_lt_of_gt hkpos]
    · intro m
      exact rangeAsc_get hkpos i j m
  · intro e1 stop e3 v1 vstop v3 h1 hstop h3 hbad
    rw [eval_range_explicit fuel env e1 stop e3 v1 vstop v3 h1 hstop h3]
    rcases hbad with hb | hb | hb
    · simp [rangeValues, hb]
    · cases hx : asIntOpt v1 <;> simp [rangeValues, hx, hb]
    · cases hx : asIntOpt v1 <;> cases hy : asIntOpt vstop <;>
        simp [rangeValues, hx, hy, hb]

theorem C6_range_semantics_witness :
    eval 2 (Expression.Range (some (Expression.CInt 0)) (Expression.CInt 5)
        (some (Expression.CInt 2))) []
      = some (Except.ok (EvalResult.List ((rangeAsc 0 5 2).map EvalResult.CInt))) :=
  ((C6_range_semantics 0 []).2.2.2.1 (Expression.CInt 0) (Expression.CInt 5)
      (Expression.CInt 2) (EvalResult.CInt 0) (EvalResult.CInt 5) (EvalResult.CInt 2)
      rfl rfl rfl 0 5 2 rfl rfl rfl (by decide)).1

/-- C2 counterexample: at start=10, stop=3, step=-2 the interpreter yields
`[10, 8, 6]`, while the reverse of the ascending range over
`[stop + |step|, start] = [5, 10]` with stride 2 is `[9, 7, 5]` — the
claim's "equivalently"-clause fails (the descending walk is anchored at
`start`, not at `stop + |step|`). -/
theorem C2_descending_range_counterexample :
    eval 2 (Expression.Range (some (Expression.CInt 10)) (Expression.CInt 3)
        (some (Expression.CInt (-2)))) []
      = some (Except.ok (EvalResult.List ([10, 8, 6].map EvalResult.CInt)))
    ∧ (specAscClosed (3 + 2) 10 2).reverse = [9, 7, 5]
    ∧ ([10, 8, 6] : List Int) ≠ [9, 7, 5] := by
  refine ⟨rfl, rfl, by decide⟩

/-- C2 (amended): for a negative step (within i32 bounds that keep the
wrapping conversions exact), a range walks backward from `start` by `|step|`
down to but not below `stop + |step|`: position `m` of the result holds
`start - |step| * m` exactly while that value is at least `stop + |step|`.
The claim's instance start=10, stop=3, step=-1 yields `[10,9,8,7,6,5,4]`. -/
theorem C2_descending_range (fuel : Nat) (env : Environment)
    (e1 stop e3 : Expression) (v1 vstop v3 : EvalResult) (i j k : Int)
    (h1 : eval (fuel + 1) e1 env = some (Except.ok v1))
    (hstop : eval (fuel + 1) stop env = some (Except.ok vstop))
    (h3 : eval (fuel + 1) e3 env = some (Except.ok v3))
    (hi : asIntOpt v1 = some i) (hj : asIntOpt vstop = some j)
    (hk : asIntOpt v3 = some k)
    (hneg : k < 0) (hmin : -2 ^ 31 < k)
    (hlo1 : -2 ^ 31 ≤ j + |k|) (hlo2 : j + |k| < 2 ^ 31) :
    (eval (fuel + 1 + 1) (Expression.Range (some e1) stop (some e3)) env
      = some (Except.ok (EvalResult.List
          ((rangeDesc i (j + |k|) |k|).map EvalResult.CInt)))
    ∧ ∀ m : Nat, (rangeDesc i (j + |k|) |k|)[m]?
        = if j + |k| ≤ i - |k| * m then some (i - |k| * m) else Option.none)
    ∧ eval 2 (Expression.Range (some (Expression.CInt 10)) (Expression.CInt 3)
        (some (Expression.CInt (-1)))) []
      = some (Except.ok (EvalResult.List
          ([10, 9, 8, 7, 6, 5, 4].map EvalResult.CInt))) := by
  have habs : 0 < |k| := abs_pos.mpr hneg.ne
  have habs2 : |k| < 2 ^ 31 := by
    rcases abs_cases k with ⟨he, _⟩ | ⟨he, _⟩ <;> omega
  have hwabs : wrapAbs k = |k| := by
    unfold wrapAbs
    exact wrap32_eq_self (by omega) habs2
  refine ⟨⟨?_, ?_⟩, rfl⟩
  · rw [eval_range_explicit fuel env e1 stop e3 v1 vstop v3 h1 hstop h3]
    have hlo : wrap32 (j + wrapAbs k) = j + |k| := by
      rw [hwabs]
      exact wrap32_eq_self hlo1 hlo2
    simp [rangeValues, hi, hj, hk, hneg, hneg.ne, hwabs, hlo,
      wrap32_eq_self hlo1 hlo2]
  · intro m
    exact rangeDesc_get habs i (j + |k|) m

theorem C2_descending_range_witness :
    eval 2 (Expression.Range (some (Expression.CInt 10)) (Expression.CInt 3)
        (some (Expression.CInt (-1)))) []
      = some (Except.ok (EvalResult.List
          ((rangeDesc 10 (3 + |(-1 : Int)|) |(-1 : Int)|).map EvalResult.CInt))) :=
  ((C2_descending_range 0 [] (Expression.CInt 10) (Expression.CInt 3)
      (Expression.CInt (-1)) (EvalResult.CInt 10) (EvalResult.CInt 3)
      (EvalResult.CInt (-1)) 10 3 (-1) rfl rfl rfl rfl rfl rfl
      (by decide) (by decide) (by decide) (by decide)).1).1

/-- C1 counterexample: concatenation performs no kind check, so adding the
integer list `[1]` to the real list `[2.0]` succeeds with a list whose two
elements are of incompatible kinds — the unconditional invariant fails. -/
theorem C1_list_invariant_counterexample :
    eval 3 (Expression.Add (Expression.List [Expression.CInt 1])
        (Expression.List [Expression.CReal 2])) []
      = some (Except.ok (EvalResult.List [EvalResult.CInt 1, EvalResult.CReal 2]))
    ∧ sameKind (EvalResult.CInt 1) (EvalResult.CReal 2) = false := ⟨rfl, rfl⟩

/-- C1 (amended): list literals and ranges always produce pairwise
kind-compatible lists; concatenation produces a compatible list provided the
two operand lists are compatible with each other; replication preserves
compatibility in all four source arms (list × integer, integer × list,
list × boolean, boolean × list); and variable lookup returns the stored
list unchanged.  (Unrestricted concatenation violates the invariant, see
the counterexample.) -/
theorem C1_list_invariant (fuel : Nat) (env : Environment) :
    (∀ (items : List Expression) (v : EvalResult),
        eval (fuel + 1) (Expression.List items) env = some (Except.ok v) →
        ∃ vs, v = EvalResult.List vs ∧ homAll vs)
    ∧ (∀ (m1 : Option Expression) (stop : Expression) (m3 : Option Expression)
          (v : EvalResult),
        eval (fuel + 1) (Expression.Range m1 stop m3) env = some (Except.ok v) →
        ∃ vs, v = EvalResult.List vs ∧ homAll vs)
    ∧ (∀ (a b : Expression) (l1 l2 : List EvalResult),
        eval fuel a env = some (Except.ok (EvalResult.List l1)) →
        eval fuel b env = some (Except.ok (EvalResult.List l2)) →
        homAll l1 → homAll l2 → (∀ x ∈ l1, ∀ y ∈ l2, sameKind x y = true) →
        eval (fuel + 1) (Expression.Add a b) env
          = some (Except.ok (EvalResult.List (l1 ++ l2)))
        ∧ homAll (l1 ++ l2))
    ∧ (∀ (a b : Expression) (l : List EvalResult) (n : Int),
        eval fuel a env = some (Except.ok (EvalResult.List l)) →
        eval fuel b env = some (Except.ok (EvalResult.CInt n)) →
        homAll l →
        eval (fuel + 1) (Expression.Mul a b) env
          = some (Except.ok (EvalResult.List (repeatList n l)))
        ∧ homAll (repeatList n l))
    ∧ (∀ (a b : Expression) (l : List EvalResult) (n : Int),
        eval fuel a env = some (Except.ok (EvalResult.CInt n)) →
        eval fuel b env = some (Except.ok (EvalResult.List l)) →
        homAll l →
        eval (fuel + 1) (Expression.Mul a b) env
          = some (Except.ok (EvalResult.List (repeatList n l)))
        ∧ homAll (repeatList n l))
    ∧ (∀ (a b : Expression) (l : List EvalResult) (c : Bool),
        eval fuel a env = some (Except.ok (EvalResult.List l)) →
        eval fuel b env = some (Except.ok (EvalResult.Bool c)) →
        homAll l →
        eval (fuel + 1) (Expression.Mul a b) env
          = some (Except.ok (EvalResult.List (repeatList (boolToInt c) l)))
        ∧ homAll (repeatList (boolToInt c) l))
    ∧ (∀ (a b : Expression) (l : List EvalResult) (c : Bool),
        eval fuel a env = some (Except.ok (EvalResult.Bool c)) →
        eval fuel b env = some (Except.ok (EvalResult.List l)) →
        homAll l →
        eval (fuel + 1) (Expression.Mul a b) env
          = some (Except.ok (EvalResult.List (repeatList (boolToInt c) l)))
        ∧ homAll (repeatList (boolToInt c) l))
    ∧ (∀ (name : String) (l : List EvalResult),
        lookupEnv env name = some (EnvValue.List l) →
        eval (fuel + 1) (Expression.Var name) env
          = some (Except.ok (EvalResult.List l))) := by
  refine ⟨?_, ?_, ?_, ?_, ?_, ?_, ?_, ?_⟩
  · intro items v h
    rw [eval_succ] at h
    cases items with
    | nil => simp [evalE] at h
    | cons i0 rest =>
        simp only [evalE] at h
        obtain ⟨first, hfirst, h2⟩ := bindR_eq_some_ok h
        obtain ⟨vs, hvs, h3⟩ := bindR_eq_some_ok h2
        simp only [Option.some_inj, Except.ok.injEq] at h3
        refine ⟨vs, h3.symm, ?_⟩
        intro a ha b hb
        exact sameKind_trans (evalItems_sound (eval fuel) env first _ vs hvs a ha)
          (evalItems_sound (eval fuel) env first _ vs hvs b hb)
  · intro m1 stop m3 v h
    rw [eval_succ] at h
    simp only [evalE] at h
    obtain ⟨endV, _, h2⟩ := bindR_eq_some_ok h
    obtain ⟨srtD, _, h3⟩ := bindR_eq_some_ok h2
    obtain ⟨incrD, _, h4⟩ := bindR_eq_some_ok h3
    obtain ⟨srtV, _, h5⟩ := bindR_eq_some_ok h4
    obtain ⟨incrV, _, h6⟩ := bindR_eq_some_ok h5
    simp only [Option.some_inj] at h6
    unfold rangeValues at h6
    cases hx : asIntOpt srtV <;> rw [hx] at h6 <;>
      cases hy : asIntOpt endV <;> rw [hy] at h6 <;>
        cases hz : asIntOpt incrV <;> rw [hz] at h6 <;> simp at h6
    rename_i i j k
    split_ifs at h6
    all_goals
      first
        | (exact ⟨_, rfl, homAll_map_CInt _⟩)
        | (exact ⟨_, (Except.ok.inj h6).symm, homAll_map_CInt _⟩)
  · intro a b l1 l2 ha hb h1 h2 hcross
    constructor
    · rw [eval_succ]
      simp [evalE, ha, hb, bindR, addValues]
    · intro x hx y hy
      rcases List.mem_append.mp hx with hx1 | hx2 <;>
        rcases List.mem_append.mp hy with hy1 | hy2
      · exact h1 x hx1 y hy1
      · exact hcross x hx1 y hy2
      · rw [sameKind_symm]; exact hcross y hy1 x hx2
      · exact h2 x hx2 y hy2
  · intro a b l n ha hb hl
    constructor
    · rw [eval_succ]
      simp [evalE, ha, hb, bindR, mulValues]
    · intro x hx y hy
      exact hl x (mem_repeatList hx) y (mem_repeatList hy)
  · intro a b l n ha hb hl
    constructor
    · rw [eval_succ]
      simp [evalE, ha, hb, bindR, mulValues]
    · intro x hx y hy
      exact hl x (mem_repeatList hx) y (mem_repeatList hy)
  · intro a b l c ha hb hl
    constructor
    · rw [eval_succ]
      simp [evalE, ha, hb, bindR, mulValues]
    · intro x hx y hy
      exact hl x (mem_repeatList hx) y (mem_repeatList hy)
  · intro a b l c ha hb hl
    constructor
    · rw [eval_succ]
      simp [evalE, ha, hb, bindR, mulValues]
    · intro x hx y hy
      exact hl x (mem_repeatList hx) y (mem_repeatList hy)
  · intro name l hl
    simp [eval_succ, evalE, hl]

theorem C1_list_invariant_witness :
    eval 1 (Expression.Var "xs") [("xs", EnvValue.List [EvalResult.CInt 7])]
      = some (Except.ok (EvalResult.List [EvalResult.CInt 7])) :=
  (C1_list_invariant 0 [("xs", EnvValue.List [EvalResult.CInt 7])]).2.2.2.2.2.2.2
    "xs" [EvalResult.CInt 7] rfl

/-- C10: during a call, every positional argument is evaluated against the
caller's original environment: the bindings an argument-binding loop
produces are a function of the parameter/argument pairs and the caller's
environment alone (`computeBindings` never sees the accumulating function
environment), whatever environment has been accumulated so far.  Concretely,
calling `f(x, y) = y` as `f(5, x)` with caller binding `x = 100` binds
`y` to 100, not to the freshly bound parameter value 5. -/
theorem C10_arguments_use_caller_env (fuel : Nat) (callerEnv : Environment) :
    (∀ (pairs : List ((String × EvalResult) × Expression)) (acc : Environment),
        bindParams (eval fuel) callerEnv pairs acc
          = bindR (computeBindings (eval fuel) callerEnv pairs) fun bs =>
              some (Except.ok (insertAllEnv acc bs)))
    ∧ eval 3 (Expression.FuncCall "f" (some [Expression.CInt 5, Expression.Var "x"]))
        [("x", EnvValue.CInt 100),
         ("f", EnvValue.Func (EvalResult.CInt 0)
            (some [("x", EvalResult.CInt 0), ("y", EvalResult.CInt 0)])
            Option.none (Expression.Var "y"))]
      = some (Except.ok (EvalResult.CInt 100)) := by
  constructor
  · intro pairs
    induction pairs with
    | nil => intro acc; rfl
    | cons hd tl ih =>
        intro acc
        obtain ⟨⟨pname, ptype⟩, arg⟩ := hd
        simp only [bindParams, computeBindings]
        cases hv : eval fuel arg callerEnv with
        | none => simp [bindR]
        | some r =>
            cases r with
            | error e => simp [bindR]
            | ok v =>
                simp only [bindR]
                cases hc : checkParam ptype v with
                | error e => simp [bindR]
                | ok w =>
                    simp only []
                    rw [ih (insertEnv acc pname w)]
                    cases hcb : computeBindings (eval fuel) callerEnv tl with
                    | none => simp [bindR]
                    | some r2 =>
                        cases r2 with
                        | error e2 => simp [bindR]
                        | ok bs => simp [bindR, insertAllEnv]
  · rfl

theorem C5_list_construction_witness :
    eval 2 (Expression.List [Expression.CInt 1, Expression.CInt 2]) []
      = some (Except.ok (EvalResult.List [EvalResult.CInt 1, EvalResult.CInt 2])) :=
  (C5_list_construction 1 []).2.1 (Expression.CInt 1) [Expression.CInt 2]
    (EvalResult.CInt 1) [EvalResult.CInt 2] rfl
    (List.Forall₂.cons rfl (List.Forall₂.cons rfl List.Forall₂.nil))
    (by decide)

end RPy
